import Mathlib

set_option maxRecDepth 8000

/-!
# Verification of the koe-no-search search core

Shallow embedding of the search engine's pattern compiler, matcher, quick
filter, result processor, quick-hash fingerprinter, file-operation processor
and copy routines, translated from the Go sources
(`internal/search/matcher.go`, `internal/search/search.go`,
`internal/search/process.go` and the unnamed package files), together with
theorems settling the specification claims.

Strings are modelled at the byte level (`List Nat`), matching Go's byte-string
semantics; all inputs of interest here are ASCII, where Go's
`strings.ToLower` is exactly ASCII case folding.
-/

/-- Byte strings: Go strings are byte slices. -/
abbrev Str := List Nat

/-- Bytes of an ASCII string literal (Go `[]byte(s)`). -/
def strBytes (s : String) : Str := s.toList.map Char.toNat

/-- ASCII case folding of one byte: Go `strings.ToLower` on ASCII input. -/
def lowerByte (b : Nat) : Nat := if 65 ≤ b ∧ b ≤ 90 then b + 32 else b

/-- Go `strings.ToLower` restricted to ASCII byte strings
(`matcher.go` uses it directly and through `patternCache.lowerCache`,
which caches but never changes the value). -/
def toLowerAscii (s : Str) : Str := s.map lowerByte

/-- Go `strings.HasPrefix`-style check on byte strings. -/
def startsWith : Str → Str → Bool
  | _, [] => true
  | [], _ :: _ => false
  | c :: s, p :: ps => c == p && startsWith s ps

/-- Go `strings.Contains s sub`: `sub` occurs as a contiguous substring of `s`. -/
def containsSub : Str → Str → Bool
  | [], sub => startsWith [] sub
  | c :: rest, sub => startsWith (c :: rest) sub || containsSub rest sub

/-- Byte value of `/`, the path separator (`os.IsPathSeparator` on Unix). -/
def sepByte : Nat := 47

/-- Byte value of `.`. -/
def dotByte : Nat := 46

/-- Trailing-separator trimming used by Go `filepath.Base`. -/
def dropTrailingSeps (s : Str) : Str := (s.reverse.dropWhile (fun c => c == sepByte)).reverse

/-- The longest suffix of `s` without a separator. -/
def afterLastSep (s : Str) : Str := (s.reverse.takeWhile (fun c => c != sepByte)).reverse

/-- Go `filepath.Base`: empty path gives `"."`, trailing separators are
dropped, an all-separator path gives `"/"`, otherwise everything after the
last separator. -/
def filepathBase (p : Str) : Str :=
  if p = [] then [dotByte]
  else
    let q := dropTrailingSeps p
    if q = [] then [sepByte] else afterLastSep q

/-- Helper for `filepathExt`: walk the reversed path accumulating bytes until
the first `.` (return it with the accumulated suffix) or a separator or the
start of the string (return `""`). -/
def extAux : Str → Str → Str
  | [], _ => []
  | c :: rest, acc =>
    if c = sepByte then []
    else if c = dotByte then dotByte :: acc
    else extAux rest (c :: acc)

/-- Go `filepath.Ext`: the suffix beginning at the final dot in the final
path element, `""` if there is none. -/
def filepathExt (p : Str) : Str := extAux p.reverse []

/-- Go `filepath.Join dir name` for an already-clean, nonempty `dir`. -/
def filepathJoin (dir name : Str) : Str := dir ++ sepByte :: name

/-- The fields of `SearchOptions` (`types.go`) that the claims exercise.
Durations and sizes are integers (nanoseconds / bytes). -/
structure SearchOptions where
  patterns : List Str
  extensions : List Str
  ignoreCase : Bool
  minSize : Int
  maxSize : Int
  minAge : Int
  maxAge : Int
  excludeHidden : Bool
  deduplicateFiles : Bool
  deriving Repr, DecidableEq

/-- The `SearchOptions` with every field at its zero value except the name
patterns — the "all other options at their defaults" configuration. -/
def defaultOptions (patterns : List Str) : SearchOptions :=
  ⟨patterns, [], false, 0, 0, 0, 0, false, false⟩

/-- The regex metacharacters tested by `containsRegexChars` (`matcher.go`):
the byte set of `"^$.*+?()[]{}|\\"`. -/
def regexSpecialChars : Str := [94, 36, 46, 42, 43, 63, 40, 41, 91, 93, 123, 125, 124, 92]

/-- Model of `matcher.go` `containsRegexChars`. -/
def containsRegexChars (s : Str) : Bool := s.any (fun c => regexSpecialChars.contains c)

/-- Model of `matcher.go` `compiledPatterns`. A pattern containing regex
metacharacters is compiled as `regexp.MustCompile(regexp.QuoteMeta(pat))`
(optionally prefixed `(?i)`); since `QuoteMeta` escapes every metacharacter,
such a compiled regex matches exactly the literal pattern text, so we store
the raw pattern bytes and give the literal-match semantics in
`quotedRegexMatches`. -/
structure compiledPatterns where
  patterns : List Str
  simplePatterns : List Str
  extensions : List Str
  deriving Repr, DecidableEq

/-- The `MatchString` of the compiled pattern `QuoteMeta pat` (with `(?i)` iff
`ignoreCase`): an unanchored fully-quoted regex matches a string iff the
literal pattern occurs as a substring, case-insensitively under `(?i)`
(for ASCII, containment after ASCII folding). -/
def quotedRegexMatches (ignoreCase : Bool) (pat s : Str) : Bool :=
  if ignoreCase then containsSub (toLowerAscii s) (toLowerAscii pat) else containsSub s pat

/-- Extension normalization inside `preparePatterns`: lowercase iff
`IgnoreCase`, then prepend a dot when missing. -/
def normalizeExt (ignoreCase : Bool) (ext : Str) : Str :=
  let e := if ignoreCase then toLowerAscii ext else ext
  if startsWith e [dotByte] then e else dotByte :: e

/-- The extensions loop of `preparePatterns`: skip empties, normalize,
de-duplicate via the `seen` set (kept in first-occurrence order; the final
`sort.Strings` only enables binary search and does not change membership,
which is how the list is consumed in `matchesPatterns`). -/
def prepareExtensions (ignoreCase : Bool) (exts : List Str) : List Str :=
  exts.foldl
    (fun acc ext =>
      if ext = [] then acc
      else
        let e := normalizeExt ignoreCase ext
        if acc.contains e then acc else acc ++ [e])
    []

/-- Model of `matcher.go` `preparePatterns`: empty patterns are dropped; patterns
without regex metacharacters become simple substring patterns (lowercased iff
`IgnoreCase`, via `lowerCache`); the rest are compiled as quoted regexes. -/
def preparePatterns (opts : SearchOptions) : compiledPatterns :=
  opts.patterns.foldl
    (fun cp pat =>
      if pat = [] then cp
      else if containsRegexChars pat then
        { cp with patterns := cp.patterns ++ [pat] }
      else
        { cp with
            simplePatterns :=
              cp.simplePatterns ++ [if opts.ignoreCase then toLowerAscii pat else pat] })
    ⟨[], [], prepareExtensions opts.ignoreCase opts.extensions⟩

/-- Model of `matcher.go` `matchesPatterns`. The `>10`-extensions branch does a binary
search over the sorted list; both branches decide list membership, modelled
as `List.contains`. -/
def matchesPatterns (path : Str) (cp : compiledPatterns) (ignoreCase : Bool) : Bool :=
  if cp.patterns.isEmpty && cp.simplePatterns.isEmpty && cp.extensions.isEmpty then true
  else
    let extOK : Bool :=
      if !cp.extensions.isEmpty then
        let ext := filepathExt path
        let ext := if ignoreCase then toLowerAscii ext else ext
        cp.extensions.contains ext
      else true
    if !extOK then false
    else
      let filename := filepathBase path
      let lowerFilename := toLowerAscii filename
      let simpleHit :=
        cp.simplePatterns.any
          (fun pat => if ignoreCase then containsSub lowerFilename pat else containsSub filename pat)
      if !cp.simplePatterns.isEmpty && simpleHit then true
      else if !cp.simplePatterns.isEmpty && cp.patterns.isEmpty then false
      else cp.patterns.any (fun pat => quotedRegexMatches ignoreCase pat filename)

/-- Variant of `matchesPatterns` with the path already case-folded, used to show that
with `IgnoreCase` the result depends only on the folded path. -/
def matchesPatternsFolded (q : Str) (cp : compiledPatterns) : Bool :=
  if cp.patterns.isEmpty && cp.simplePatterns.isEmpty && cp.extensions.isEmpty then true
  else
    let extOK : Bool :=
      if !cp.extensions.isEmpty then cp.extensions.contains (filepathExt q) else true
    if !extOK then false
    else
      let fname := filepathBase q
      let simpleHit := cp.simplePatterns.any (fun pat => containsSub fname pat)
      if !cp.simplePatterns.isEmpty && simpleHit then true
      else if !cp.simplePatterns.isEmpty && cp.patterns.isEmpty then false
      else cp.patterns.any (fun pat => containsSub fname (toLowerAscii pat))

/-- File metadata as used by the matcher and fingerprinter
(`os.FileInfo`: size in bytes, modification time in Unix nanoseconds,
permission/mode bits). -/
structure FileInfo where
  size : Int
  modTimeNanos : Int
  mode : Nat
  deriving Repr, DecidableEq

/-- Model of `matcher.go` `matchesFileConstraints`; `now` is the current clock so that
`age = now - modTime` models `time.Since(info.ModTime())`. -/
def matchesFileConstraints (info : FileInfo) (now : Int) (opts : SearchOptions) : Bool :=
  let age := now - info.modTimeNanos
  if opts.minSize > 0 ∧ info.size < opts.minSize then false
  else if opts.maxSize > 0 ∧ info.size > opts.maxSize then false
  else if opts.minAge > 0 ∧ age < opts.minAge then false
  else if opts.maxAge > 0 ∧ age > opts.maxAge then false
  else true

/-- From `globals.go`: `skipExtensions = map[string]bool{}` — the skip set is
empty. -/
def skipExtensions : List Str := []

/-- Model of `matcher.go` `shouldProcessFile`: hidden check, skip-extension check and
the quick substring check of the raw (uncompiled) patterns against the base
name. -/
def shouldProcessFile (path : Str) (opts : SearchOptions) : Bool :=
  if opts.excludeHidden && startsWith (filepathBase path) [dotByte] then false
  else if skipExtensions.contains (toLowerAscii (filepathExt path)) then false
  else if !opts.patterns.isEmpty then
    let filename := filepathBase path
    if opts.ignoreCase then
      opts.patterns.any (fun pat => !pat.isEmpty && containsSub (toLowerAscii filename) (toLowerAscii pat))
    else
      opts.patterns.any (fun pat => !pat.isEmpty && containsSub filename pat)
  else true

/-- The per-file acceptance decision of `processFileBatch` (`search.go`):
after a successful `Lstat`, a result is emitted iff the compiled patterns
and the size/age constraints accept the file. -/
def processFileBatchAccepts (path : Str) (info : FileInfo) (now : Int)
    (cp : compiledPatterns) (opts : SearchOptions) : Bool :=
  matchesPatterns path cp opts.ignoreCase && matchesFileConstraints info now opts

/-- End-to-end emission of `Search` (`search.go`) over a flat directory of
regular files, with hashing succeeding and mmap disabled (the defaults): the
walker offers every file to `shouldProcessFile`, accepted paths are batched,
and `processFileBatch` emits those accepted by `matchesPatterns` and
`matchesFileConstraints`; afterwards the orchestrator closes the result
stream, so the returned list is the complete stream content. -/
def searchEmittedPaths (files : List (Str × FileInfo)) (now : Int)
    (opts : SearchOptions) : List Str :=
  let cp := preparePatterns opts
  ((files.filter (fun f => shouldProcessFile f.1 opts)).filter
      (fun f => processFileBatchAccepts f.1 f.2 now cp opts)).map (fun f => f.1)

/-- A `SearchResult` (`types.go`): error messages are byte strings, `none`
meaning a nil error. -/
structure SearchResult where
  path : Str
  size : Int
  mode : Nat
  modTime : Int
  hash : Nat
  error : Option Str
  deriving Repr, DecidableEq

/-- State of the `resultProcessor` (unnamed part_004) together with the
result channel it owns: `seen` is the dedup hash set, `dedupe` copies
`opts.DeduplicateFiles`, `closedStream` records whether `close(rp.results)`
has run, and `stream` is the sequence of results sent into the channel. -/
structure resultProcessorState where
  seen : List Nat
  dedupe : Bool
  closedStream : Bool
  stream : List SearchResult
  deriving Repr, DecidableEq

/-- Outcome of one `resultProcessor.add` call: the new state, whether the
result was forwarded into the channel, and whether the call panicked
(`rp.results <- result` on a closed channel panics in Go). -/
structure addOutcome where
  state : resultProcessorState
  forwarded : Bool
  panicked : Bool
  deriving Repr, DecidableEq

/-- The channel send `rp.results <- result`: panics when the channel is
closed, otherwise appends to the stream. -/
def rpSend (st : resultProcessorState) (r : SearchResult) : addOutcome :=
  if st.closedStream then ⟨st, false, true⟩
  else ⟨{ st with stream := st.stream ++ [r] }, true, false⟩

/-- Model of `resultProcessor.add` (unnamed part_004): with dedup on, a result whose
hash is in `seen` is dropped with no other effect; otherwise the hash is
recorded and the result is sent. -/
def resultProcessorAdd (st : resultProcessorState) (r : SearchResult) : addOutcome :=
  if st.dedupe then
    if st.seen.contains r.hash then ⟨st, false, false⟩
    else rpSend { st with seen := r.hash :: st.seen } r
  else rpSend st r

/-- Model of `resultProcessor.close` (unnamed part_004): `close(rp.results)`. -/
def resultProcessorClose (st : resultProcessorState) : resultProcessorState :=
  { st with closedStream := true }

/-- Model of `newResultProcessor` (unnamed part_004). -/
def newResultProcessor (opts : SearchOptions) : resultProcessorState :=
  ⟨[], opts.deduplicateFiles, false, []⟩

/-- A sequence of `add` calls, threading the state. -/
def resultProcessorRun (st : resultProcessorState) (rs : List SearchResult) :
    resultProcessorState :=
  rs.foldl (fun s r => (resultProcessorAdd s r).state) st

/-- Little-endian `binary.Write` encoding of an `int64` (two's complement,
eight bytes). -/
def le64 (n : Int) : List Nat :=
  let u : Nat := (n % ((2 : Int) ^ 64)).toNat
  (List.range 8).map (fun i => u / 256 ^ i % 256)

/-- The metadata bytes `calculateQuickHash` (unnamed part_004) writes into
the xxhash state before touching the file: path bytes, then the size and
modification-time nanoseconds as little-endian int64. -/
def quickHashMeta (path : Str) (info : FileInfo) : List Nat :=
  path ++ le64 info.size ++ le64 info.modTimeNanos

/-- The content bytes mixed in after the metadata: nothing when the open or
read fails, otherwise the first KiB. -/
def quickHashMix (content? : Option (List Nat)) : List Nat :=
  match content? with
  | none => []
  | some c => c.take 1024

/-- Model of `calculateQuickHash` (unnamed part_004). The xxhash digest is the
third-party `cespare/xxhash` library, abstracted as `h` over the byte stream
written into it; the Go return type `uint64` is the `% 2^64`. `content?` is
the outcome of `os.Open(path)`: `none` when the open fails, otherwise the
file bytes, of which `f.Read(buf[:1024])` yields the first KiB (an empty
file reads as `(0, io.EOF)`, so nothing is written). The slice expression
`buf[:1024]` is evaluated before `Read` is called and panics — modelled as
`none` — whenever `cap(buf) < 1024`; it is only reached when the open
succeeded. -/
def calculateQuickHash (h : List Nat → Nat) (path : Str) (info : FileInfo)
    (content? : Option (List Nat)) (bufCap : Nat) : Option Nat :=
  match content? with
  | none => some (h (quickHashMeta path info) % 2 ^ 64)
  | some content =>
      if bufCap < 1024 then none
      else if content.isEmpty then some (h (quickHashMeta path info) % 2 ^ 64)
      else some (h (quickHashMeta path info ++ content.take 1024) % 2 ^ 64)

/-- Outcome of the recover-wrapped hash computation inside
`processFileBatch` / `processRegularFile`: either the digest or the panic
message captured by `recover`. -/
abbrev HashOutcome := Except Str Nat

/-- The value left in the local `hash` variable: `0` when the panic aborted
the assignment. -/
def hashValue (outcome : HashOutcome) : Nat :=
  match outcome with
  | .ok v => v % 2 ^ 64
  | .error _ => 0

/-- The `hashErr` produced by the recover wrapper in `processFileBatch`
(`search.go`): set only by a panic. -/
def hashError (outcome : HashOutcome) : Option Str :=
  match outcome with
  | .ok _ => none
  | .error e => some e

/-- Per-file behaviour of `processFileBatch` (`internal/search/search.go`)
after a successful `Lstat`: if patterns and constraints accept the file, a
result is emitted whose `Error` field carries the hash-panic error (if any)
and whose `Hash` is the computed digest, `0` after a panic. -/
def processFileBatchResult (path : Str) (info : FileInfo) (now : Int)
    (cp : compiledPatterns) (opts : SearchOptions) (outcome : HashOutcome) :
    Option SearchResult :=
  if processFileBatchAccepts path info now cp opts then
    some ⟨path, info.size, info.mode, info.modTimeNanos, hashValue outcome, hashError outcome⟩
  else none

/-- Model of `processRegularFile` of unnamed part_003. `lstat?` is the fresh
`os.Lstat` result (`none`: vanished or inaccessible) paired with the
symlink-mode test. The hash error is the recover-captured panic or the
zero-hash check, and when it is set the function logs and returns without
emitting anything. -/
def processRegularFileP3 (path : Str) (lstat? : Option (FileInfo × Bool))
    (info : FileInfo) (now : Int) (cp : compiledPatterns) (opts : SearchOptions)
    (outcome : HashOutcome) : Option SearchResult :=
  match lstat? with
  | none => none
  | some (_, isSymlink) =>
    if isSymlink then none
    else if processFileBatchAccepts path info now cp opts then
      let hashErr : Option Str :=
        match outcome with
        | .error e => some e
        | .ok v =>
            if v % 2 ^ 64 = 0 then some (strBytes "hash calculation returned zero value")
            else none
      match hashErr with
      | some _ => none
      | none =>
          some ⟨path, info.size, info.mode, info.modTimeNanos, hashValue outcome, none⟩
    else none

/-- A regular file: content bytes and permission/mode bits. -/
structure FsFile where
  bytes : List Nat
  mode : Nat
  deriving Repr, DecidableEq

/-- Filesystem model: an association list from path to file, with unique
keys maintained by `fsSet`. -/
abbrev FS := List (Str × FsFile)

/-- Lookup of a path. -/
def fsGet (fs : FS) (p : Str) : Option FsFile :=
  match fs with
  | [] => none
  | (q, f) :: rest => if q = p then some f else fsGet rest p

/-- An `os.Remove`-style deletion of a path (no-op when absent). -/
def fsErase (fs : FS) (p : Str) : FS :=
  match fs with
  | [] => []
  | (q, f) :: rest => if q = p then fsErase rest p else (q, f) :: fsErase rest p

/-- Create or replace the file at `p`. -/
def fsSet (fs : FS) (p : Str) (f : FsFile) : FS := (p, f) :: fsErase fs p

/-- The `os.Stat` success test. -/
def fsExists (fs : FS) (p : Str) : Bool := (fsGet fs p).isSome

/-- Model of `ConflictResolutionPolicy` (`types.go`). -/
inductive ConflictResolutionPolicy
  | Skip
  | Overwrite
  | Rename
  deriving Repr, DecidableEq

/-- Decimal rendering of a natural, for the `fmt.Sprintf("%d", ...)` pieces
of the rename candidates. -/
def natStr (n : Nat) : Str := strBytes (toString n)

/-- One candidate `fmt.Sprintf("%s_%d_%d%s", base, timestamp, i, ext)` of
the part_003 `resolveConflict` rename loop. -/
def renameCandidate (base : Str) (ts : Nat) (i : Nat) (ext : Str) : Str :=
  base ++ strBytes "_" ++ natStr ts ++ strBytes "_" ++ natStr i ++ ext

/-- Model of `resolveConflict` of unnamed part_003. `ts` is the
`time.Now().UnixNano()` timestamp; `randHex?` is the 8-byte random hex
suffix, `none` when `rand.Read` fails (then the timestamp fallback is
used). `Overwrite` returns the path unconditionally; when the target does
not exist every policy returns the path unchanged. -/
def resolveConflict (fs : FS) (path : Str) (policy : ConflictResolutionPolicy)
    (ts : Nat) (randHex? : Option Str) : Str :=
  if policy = .Overwrite then path
  else if fsExists fs path then
    match policy with
    | .Overwrite => path
    | .Skip => []
    | .Rename =>
        let ext := filepathExt path
        let base := path.take (path.length - ext.length)
        match
          (List.range 100).findSome? (fun j =>
            let cand := renameCandidate base ts (j + 1) ext
            if fsExists fs cand then none else some cand)
        with
        | some cand => cand
        | none =>
            match randHex? with
            | some rh => base ++ strBytes "_" ++ rh ++ ext
            | none => base ++ strBytes "_" ++ natStr ts ++ ext
  else path

/-- Failure injection for the part_003 `copyFile`: which of its fallible
system calls fail on this run. `copyErrAfter = some k` makes
`io.CopyBuffer` return an error after writing `k` bytes into the temp
file. -/
structure CopyFailures where
  openSrcFails : Bool
  createTmpFails : Bool
  copyErrAfter : Option Nat
  syncFails : Bool
  closeFails : Bool
  renameFails : Bool
  createEmptyFails : Bool
  deriving Repr, DecidableEq

/-- Model of `copyEmptyFile` of unnamed part_003:
`os.OpenFile(dst, O_WRONLY|O_CREATE|O_TRUNC, mode)` — creating a new file
applies `mode`, truncating an existing file keeps its previous mode. -/
def copyEmptyFile (fs : FS) (dst : Str) (mode : Nat) (createFails : Bool) :
    Except Str Unit × FS :=
  if createFails then (.error (strBytes "failed to create empty file"), fs)
  else
    match fsGet fs dst with
    | some old => (.ok (), fsSet fs dst ⟨[], old.mode⟩)
    | none => (.ok (), fsSet fs dst ⟨[], mode⟩)

/-- Model of `copyFile` of unnamed part_003 (the temp-file variant). `srcInfoSize`
and `srcInfoMode` are the `srcInfo` stat snapshot taken by the caller
(`HandleFileOperation`); the bytes actually copied are read from the
filesystem at copy time, so `written != size` models the source changing
in between. The deferred cleanup removes the temp file on every failure
after its creation; `os.Rename` atomically replaces the target. -/
def copyFile (fs : FS) (src : Str) (srcInfoSize : Int) (srcInfoMode : Nat)
    (targetDir : Str) (policy : ConflictResolutionPolicy) (ts : Nat)
    (randHex? : Option Str) (fails : CopyFailures) : Except Str Unit × FS :=
  if src.isEmpty then (.error (strBytes "invalid arguments"), fs)
  else
    let targetPath := resolveConflict fs (filepathJoin targetDir (filepathBase src)) policy ts randHex?
    if targetPath.isEmpty then (.ok (), fs)
    else if srcInfoSize = 0 then copyEmptyFile fs targetPath srcInfoMode fails.createEmptyFails
    else
      match fsGet fs src with
      | none => (.error (strBytes "failed to open source"), fs)
      | some srcFile =>
        if fails.openSrcFails then (.error (strBytes "failed to open source"), fs)
        else
          let tmpPath := targetPath ++ strBytes ".tmp"
          if fsExists fs tmpPath || fails.createTmpFails then
            (.error (strBytes "failed to create target"), fs)
          else
            match fails.copyErrAfter with
            | some k =>
                (.error (strBytes "copy failed"),
                  fsErase (fsSet fs tmpPath ⟨srcFile.bytes.take k, srcInfoMode⟩) tmpPath)
            | none =>
                let full := fsSet fs tmpPath ⟨srcFile.bytes, srcInfoMode⟩
                if (srcFile.bytes.length : Int) ≠ srcInfoSize then
                  (.error (strBytes "size mismatch"), fsErase full tmpPath)
                else if fails.syncFails then (.error (strBytes "sync failed"), fsErase full tmpPath)
                else if fails.closeFails then (.error (strBytes "close failed"), fsErase full tmpPath)
                else if fails.renameFails then (.error (strBytes "rename failed"), fsErase full tmpPath)
                else (.ok (), fsSet (fsErase full tmpPath) targetPath ⟨srcFile.bytes, srcInfoMode⟩)

/-- Failure injection for the `internal/search/process.go` `copyFile`. -/
structure CopyFailuresV1 where
  openSrcFails : Bool
  createFails : Bool
  copyErrAfter : Option Nat
  deriving Repr, DecidableEq

/-- Model of `resolveConflict` of `internal/search/process.go`: like the part_003
version but the rename loop counts `1, 2, …` unboundedly with candidates
`<stem>_<i><ext>`. The loop is fuelled with `fs.length + 1` candidates —
they are pairwise distinct, so one of them is free and the Go loop stops
within that many steps. -/
def resolveConflictV1 (fs : FS) (path : Str) (policy : ConflictResolutionPolicy) : Str :=
  if policy = .Overwrite then path
  else if fsExists fs path then
    match policy with
    | .Overwrite => path
    | .Skip => []
    | .Rename =>
        let ext := filepathExt path
        let base := path.take (path.length - ext.length)
        match
          (List.range (fs.length + 1)).findSome? (fun j =>
            let cand := base ++ strBytes "_" ++ natStr (j + 1) ++ ext
            if fsExists fs cand then none else some cand)
        with
        | some cand => cand
        | none => path
  else path

/-- Model of `copyFile` of `internal/search/process.go` (the direct-write variant):
the target is opened with `O_WRONLY|O_CREATE|O_TRUNC` (truncating an
existing file keeps its mode, a new file gets the source's mode) and the
content is copied straight into it; a copy error returns with the partial
target left in place — there is no temp file and no cleanup. -/
def copyFileV1 (fs : FS) (src : Str) (srcInfoMode : Nat) (targetDir : Str)
    (policy : ConflictResolutionPolicy) (fails : CopyFailuresV1) :
    Except Str Unit × FS :=
  let targetPath := resolveConflictV1 fs (filepathJoin targetDir (filepathBase src)) policy
  if targetPath.isEmpty then (.ok (), fs)
  else
    match fsGet fs src with
    | none => (.error (strBytes "failed to open source file"), fs)
    | some srcFile =>
      if fails.openSrcFails then (.error (strBytes "failed to open source file"), fs)
      else if fails.createFails then (.error (strBytes "failed to create target file"), fs)
      else
        let dstMode :=
          match fsGet fs targetPath with
          | some old => old.mode
          | none => srcInfoMode
        match fails.copyErrAfter with
        | some k =>
            (.error (strBytes "failed to copy file content"),
              fsSet fs targetPath ⟨srcFile.bytes.take k, dstMode⟩)
        | none => (.ok (), fsSet fs targetPath ⟨srcFile.bytes, dstMode⟩)

/-- Model of `ProcessorOptions` of unnamed part_003. -/
structure ProcessorOptions where
  workers : Int
  maxQueueSize : Int
  throttleIntervalMs : Int
  deriving Repr, DecidableEq

/-- State of the `FileOperationProcessor` (unnamed part_003): `chanOpen`
records `opChan != nil` (`Stop` closes and nils it); `queue` is the content
of the buffered `opChan` of capacity `maxQueueSize`; `currentWorkers`
counts only the adaptively spawned workers (`Start` does not touch it), and
`maxWorkers = 2 * workers`. -/
structure FileOperationProcessor where
  started : Bool
  stopped : Bool
  chanOpen : Bool
  queue : List (Str × FileInfo)
  maxQueueSize : Nat
  currentWorkers : Int
  maxWorkers : Int
  baseWorkers : Nat
  deriving Repr, DecidableEq

/-- Model of `NewFileOperationProcessor` (unnamed part_003); `numCPU` is
`runtime.NumCPU()`. -/
def NewFileOperationProcessor (numCPU : Nat) (opts : ProcessorOptions) :
    FileOperationProcessor :=
  let workers : Int := if opts.workers ≤ 0 then (numCPU : Int) else opts.workers
  let maxQ : Int := if opts.maxQueueSize ≤ 0 then 1000 else opts.maxQueueSize
  { started := false, stopped := false, chanOpen := true, queue := [],
    maxQueueSize := maxQ.toNat, currentWorkers := 0, maxWorkers := workers * 2,
    baseWorkers := workers.toNat }

/-- Model of `FileOperationProcessor.Start` (unnamed part_003): fails when already
started or already stopped, otherwise marks started and launches the base
worker pool. -/
def fopStart (p : FileOperationProcessor) :
    Except Str Unit × FileOperationProcessor :=
  if p.started then (.error (strBytes "processor already started"), p)
  else if p.stopped then (.error (strBytes "processor has been stopped"), p)
  else (.ok (), { p with started := true })

/-- Model of `FileOperationProcessor.Stop` (unnamed part_003): idempotent; trips the
cancellation, joins the workers, then closes and nils `opChan`. -/
def fopStop (p : FileOperationProcessor) : FileOperationProcessor :=
  if p.stopped then p
  else { p with stopped := true, chanOpen := false }

deriving instance DecidableEq for Except

/-- Outcome of one `FileOperationProcessor.Add` call (unnamed part_003):
result, new state, number of workers spawned by this call, and the number
of enqueue (channel-send) attempts the call made. -/
structure fopAddOutcome where
  result : Except Str Unit
  state : FileOperationProcessor
  workersSpawned : Nat
  enqueueAttempts : Nat
  deriving Repr, DecidableEq

/-- Model of `FileOperationProcessor.Add` (unnamed part_003). Argument validation,
then the stopped check, then the throttle tick, then a single `select`: a
successful buffered send (queue below capacity) returns nil; the `default`
branch — queue full — spawns one extra worker when `currentWorkers <
maxWorkers` and returns the queue-full error without attempting the send
again. -/
def fopAdd (p : FileOperationProcessor) (path : Str) (info? : Option FileInfo) :
    fopAddOutcome :=
  match info? with
  | none => ⟨.error (strBytes "invalid arguments: path or file info is nil"), p, 0, 0⟩
  | some info =>
    if path.isEmpty then
      ⟨.error (strBytes "invalid arguments: path or file info is nil"), p, 0, 0⟩
    else if p.stopped || !p.chanOpen then
      ⟨.error (strBytes "processor is stopped"), p, 0, 0⟩
    else if p.queue.length < p.maxQueueSize then
      ⟨.ok (), { p with queue := p.queue ++ [(path, info)] }, 0, 1⟩
    else if p.currentWorkers < p.maxWorkers then
      ⟨.error (strBytes "operation queue is full"),
        { p with currentWorkers := p.currentWorkers + 1 }, 1, 1⟩
    else
      ⟨.error (strBytes "operation queue is full"), p, 0, 1⟩

/-- The C1 scenario tree: `/t/a.txt` and `/t/b.log`, both 10 bytes,
modified "now". -/
def c1Files : List (Str × FileInfo) :=
  [(strBytes "/t/a.txt", ⟨10, 0, 420⟩), (strBytes "/t/b.log", ⟨10, 0, 420⟩)]

/-- The C1 options: `Patterns=["*.txt"]`, everything else default. -/
def c1Options : SearchOptions := defaultOptions [strBytes "*.txt"]

/-- Options with dedup enabled, for the C3 witness. -/
def dedupOptions : SearchOptions := ⟨[], [], false, 0, 0, 0, 0, false, true⟩

/-- Two concrete results with the same hash, for the C3 witness. -/
def resA : SearchResult := ⟨strBytes "/t/a", 10, 420, 0, 77, none⟩

/-- Second result sharing `resA`'s hash. -/
def resB : SearchResult := ⟨strBytes "/t/b", 11, 420, 5, 77, none⟩

/-- A processor state that has already seen hash 77, for the C3 witness. -/
def seenState : resultProcessorState := ⟨[77], true, false, [resA]⟩

/-- A processor state whose result channel has been closed, without dedup
(`DeduplicateFiles=false`), for C5. -/
def closedState : resultProcessorState :=
  resultProcessorClose (newResultProcessor (defaultOptions []))

/-- A closed processor state with dedup on and nothing seen, for the C5
witness. -/
def closedDedupState : resultProcessorState :=
  resultProcessorClose (newResultProcessor dedupOptions)

/-- The C4 counterexample filesystem: the source exists, the target
directory is empty. -/
def c4SourceFs : FS := [(strBytes "/t/a.txt", ⟨[1, 2, 3, 4], 420⟩)]

/-- The C4 counterexample run of the `process.go` `copyFile`: the copy
fails midway after 2 of 4 bytes. -/
def c4FailedCopy : Except Str Unit × FS :=
  copyFileV1 c4SourceFs (strBytes "/t/a.txt") 420 (strBytes "/u") .Overwrite ⟨false, false, some 2⟩

/-- A concrete started processor with a full queue (capacity 1) and worker
headroom, for C6. -/
def fullQueueProcessor : FileOperationProcessor :=
  { started := true, stopped := false, chanOpen := true,
    queue := [(strBytes "/t/q", ⟨1, 0, 420⟩)], maxQueueSize := 1,
    currentWorkers := 0, maxWorkers := 4, baseWorkers := 2 }

/-- A fresh processor, for the C7 witness. -/
def freshProcessor : FileOperationProcessor := NewFileOperationProcessor 4 ⟨2, 8, 100⟩

/-- Case-insensitive options with the simple pattern `readme` and the
quoted pattern `*.txt`, for the C8 witness. -/
def ciOptions : SearchOptions :=
  ⟨[strBytes "readme", strBytes "*.txt"], [strBytes "txt"], true, 0, 0, 0, 0, false, false⟩

/-- Dedup invariant of the result processor: forwarded hashes are pairwise
distinct and every forwarded hash is recorded in `seen`. -/
def rpInvariant (st : resultProcessorState) : Prop :=
  (st.stream.map (fun r => r.hash)).Nodup ∧ ∀ r ∈ st.stream, st.seen.contains r.hash = true

/-- The mode the part_003 `copyFile` leaves on the target: the source's
mode, except that the empty-source path truncates an existing target in
place, keeping its previous mode. -/
def c4ModeSpec (fs : FS) (resolved : Str) (srcInfoSize : Int) (srcInfoMode : Nat) : Nat :=
  match fsGet fs resolved with
  | some old => if srcInfoSize = 0 then old.mode else srcInfoMode
  | none => srcInfoMode

theorem lowerByte_sep (b : Nat) : lowerByte b = sepByte ↔ b = sepByte := by
  unfold lowerByte sepByte
  split <;> omega

theorem lowerByte_dot (b : Nat) : lowerByte b = dotByte ↔ b = dotByte := by
  unfold lowerByte dotByte
  split <;> omega

theorem takeWhile_map_comm (f : Nat → Nat) (q : Nat → Bool) (h : ∀ b, q (f b) = q b)
    (l : List Nat) : (l.map f).takeWhile q = (l.takeWhile q).map f := by
  induction l with
  | nil => rfl
  | cons a t ih =>
      simp only [List.map_cons, List.takeWhile, h a]
      cases q a <;> simp [ih]

theorem dropWhile_map_comm (f : Nat → Nat) (q : Nat → Bool) (h : ∀ b, q (f b) = q b)
    (l : List Nat) : (l.map f).dropWhile q = (l.dropWhile q).map f := by
  induction l with
  | nil => rfl
  | cons a t ih =>
      simp only [List.map_cons, List.dropWhile, h a]
      cases q a <;> simp [ih]

theorem lowerByte_beq_sep (b : Nat) : (lowerByte b == sepByte) = (b == sepByte) := by
  by_cases hb : b = sepByte
  · subst hb
    decide
  · have h2 : (lowerByte b == sepByte) = false :=
      beq_eq_false_iff_ne.mpr (fun he => hb ((lowerByte_sep b).mp he))
    have h3 : (b == sepByte) = false := beq_eq_false_iff_ne.mpr hb
    rw [h2, h3]

theorem lowerByte_bne_sep (b : Nat) : (lowerByte b != sepByte) = (b != sepByte) := by
  simp [bne, lowerByte_beq_sep]

theorem dropTrailingSeps_lower (p : Str) :
    dropTrailingSeps (toLowerAscii p) = toLowerAscii (dropTrailingSeps p) := by
  unfold dropTrailingSeps toLowerAscii
  rw [← List.map_reverse, dropWhile_map_comm lowerByte _ lowerByte_beq_sep, List.map_reverse]

theorem afterLastSep_lower (p : Str) :
    afterLastSep (toLowerAscii p) = toLowerAscii (afterLastSep p) := by
  unfold afterLastSep toLowerAscii
  rw [← List.map_reverse, takeWhile_map_comm lowerByte _ lowerByte_bne_sep, List.map_reverse]

theorem base_lower (p : Str) :
    filepathBase (toLowerAscii p) = toLowerAscii (filepathBase p) := by
  unfold filepathBase
  by_cases hp : p = []
  · simp [hp, toLowerAscii, lowerByte, dotByte]
  · have hlp : toLowerAscii p ≠ [] := by simpa [toLowerAscii] using hp
    rw [if_neg hlp, if_neg hp, dropTrailingSeps_lower]
    by_cases hq : dropTrailingSeps p = []
    · simp [hq, toLowerAscii, lowerByte, sepByte]
    · have hlq : toLowerAscii (dropTrailingSeps p) ≠ [] := by simpa [toLowerAscii] using hq
      rw [if_neg hlq, if_neg hq, afterLastSep_lower]

theorem extAux_lower (l acc : Str) :
    extAux (l.map lowerByte) (acc.map lowerByte) = (extAux l acc).map lowerByte := by
  induction l generalizing acc with
  | nil => rfl
  | cons c rest ih =>
      simp only [List.map_cons, extAux]
      by_cases hs : c = sepByte
      · subst hs
        rw [if_pos ((lowerByte_sep sepByte).mpr rfl), if_pos rfl]
        rfl
      · rw [if_neg (fun he => hs ((lowerByte_sep c).mp he)), if_neg hs]
        by_cases hd : c = dotByte
        · subst hd
          rw [if_pos ((lowerByte_dot dotByte).mpr rfl), if_pos rfl]
          have hld : lowerByte dotByte = dotByte := by decide
          simp [List.map_cons, hld]
        · rw [if_neg (fun he => hd ((lowerByte_dot c).mp he)), if_neg hd]
          exact ih (c :: acc)

theorem ext_lower (p : Str) :
    filepathExt (toLowerAscii p) = toLowerAscii (filepathExt p) := by
  unfold filepathExt toLowerAscii
  rw [← List.map_reverse]
  exact extAux_lower p.reverse []

theorem matchesPatterns_folded (p : Str) (cp : compiledPatterns) :
    matchesPatterns p cp true = matchesPatternsFolded (toLowerAscii p) cp := by
  simp only [matchesPatterns, matchesPatternsFolded, quotedRegexMatches, if_true,
    ← ext_lower, ← base_lower]

/-- C8: with `IgnoreCase=true`, matching a file name against the compiled
form of any pattern set is invariant under ASCII case of the file name: any
two names with the same ASCII case folding — in particular `README.TXT`
and `readme.txt` — produce the same boolean result. -/
theorem c8_case_fold_invariance (opts : SearchOptions) (p q : Str)
    (hci : opts.ignoreCase = true) (hfold : toLowerAscii p = toLowerAscii q) :
    matchesPatterns p (preparePatterns opts) opts.ignoreCase
      = matchesPatterns q (preparePatterns opts) opts.ignoreCase := by
  rw [hci, matchesPatterns_folded, matchesPatterns_folded, hfold]

/-- C8 witness: the invariance at the claim's own file names, for a
case-insensitive option set with a simple pattern, a quoted pattern and an
extension. -/
theorem c8_witness :
    ciOptions.ignoreCase = true
    ∧ toLowerAscii (strBytes "README.TXT") = toLowerAscii (strBytes "readme.txt")
    ∧ matchesPatterns (strBytes "README.TXT") (preparePatterns ciOptions) ciOptions.ignoreCase
        = matchesPatterns (strBytes "readme.txt") (preparePatterns ciOptions) ciOptions.ignoreCase :=
  ⟨rfl, by decide, c8_case_fold_invariance ciOptions _ _ rfl (by decide)⟩

/-- C1: on the tree `/t/a.txt`, `/t/b.log` with `Patterns=["*.txt"]` and all
other options default, the search emits no result at all — not one — and
closes the stream empty: `*` is not interpreted as a wildcard. The quick
filter requires the literal substring `*.txt` in the base name, and the
compiled pattern is `regexp.QuoteMeta("*.txt")`, which also matches only
the literal text, so `a.txt` is rejected at both stages. -/
theorem c1_wildcard_is_literal :
    searchEmittedPaths c1Files 0 c1Options = []
    ∧ shouldProcessFile (strBytes "/t/a.txt") c1Options = false
    ∧ matchesPatterns (strBytes "/t/a.txt") (preparePatterns c1Options) c1Options.ignoreCase = false := by
  decide

/-- C9: whenever the scratch buffer has capacity at least 1 KiB,
`calculateQuickHash` returns a 64-bit digest for every path: the digest is
taken over exactly the path bytes, the little-endian size and modification
time, plus — only when the file can be opened and read — the first KiB of
content; when the open or read fails nothing else is mixed in and the
caller still gets a hash. -/
theorem c9_quick_hash_total_coverage (h : List Nat → Nat) (path : Str) (info : FileInfo)
    (content? : Option (List Nat)) (bufCap : Nat) (hbuf : 1024 ≤ bufCap) :
    calculateQuickHash h path info content? bufCap
      = some (h (quickHashMeta path info ++ quickHashMix content?) % 2 ^ 64) := by
  have hb : ¬ bufCap < 1024 := by omega
  cases content? with
  | none => simp [calculateQuickHash, quickHashMix]
  | some c =>
      by_cases hc : c.isEmpty
      · have hce : c = [] := by simpa using hc
        simp [calculateQuickHash, quickHashMix, hb, hc, hce]
      · simp [calculateQuickHash, quickHashMix, hb, hc]

/-- C9 witness: a concrete readable file with a 2 KiB buffer, the digest
abstracted as the stream length. -/
theorem c9_witness :
    calculateQuickHash (fun l => l.length) (strBytes "/t/x") ⟨3, 9, 420⟩ (some [5, 6, 7]) 2048
      = some ((fun l => l.length)
          (quickHashMeta (strBytes "/t/x") ⟨3, 9, 420⟩ ++ quickHashMix (some [5, 6, 7])) % 2 ^ 64) :=
  c9_quick_hash_total_coverage (fun l => l.length) (strBytes "/t/x") ⟨3, 9, 420⟩
    (some [5, 6, 7]) 2048 (by decide)

/-- C10 counterexample: with a zero-capacity buffer and a file that cannot
be opened, `calculateQuickHash` returns a hash instead of faulting — the
claim's "for every buffer with capacity below 1024 the function faults" is
false, because `buf[:1024]` sits inside the `if f, err := os.Open(path);
err == nil` block. -/
theorem c10_counterexample_small_buffer_returns :
    (calculateQuickHash (fun l => l.length) (strBytes "/t/locked") ⟨9, 9, 420⟩ none 0).isSome
      = true := by
  decide

/-- C10 (amended): `calculateQuickHash` faults with a slice-out-of-range
panic exactly when the scratch buffer's capacity is below 1024 AND the file
can be opened; with capacity at least 1024, or when the open fails, it
returns a hash. -/
theorem c10_amended_fault_condition (h : List Nat → Nat) (path : Str) (info : FileInfo)
    (content? : Option (List Nat)) (bufCap : Nat) :
    (calculateQuickHash h path info content? bufCap).isNone
      = (decide (bufCap < 1024) && content?.isSome) := by
  cases content? with
  | none => simp [calculateQuickHash]
  | some c =>
      by_cases hb : bufCap < 1024
      · simp [calculateQuickHash, hb]
      · by_cases hc : c.isEmpty <;> simp [calculateQuickHash, hb, hc]

/-- C2 counterexample: a file the patterns and constraints accept, whose
hash computation panics — `processRegularFile` of unnamed part_003 logs
the failure and returns without emitting anything, so the result is
suppressed rather than surfaced with its `Error` field set. -/
theorem c2_counterexample_result_suppressed :
    processRegularFileP3 (strBytes "/t/a") (some (⟨10, 0, 420⟩, false)) ⟨10, 0, 420⟩ 0
      (preparePatterns (defaultOptions [strBytes "a"])) (defaultOptions [strBytes "a"])
      (.error (strBytes "hash calculation failed")) = none := by
  decide

/-- C2 (amended): in the `processFileBatch` pipeline
(`internal/search/search.go`), a matching file whose quick-hash computation
panics is still emitted as a `SearchResult` with the failure attached in
its `Error` field; the `processRegularFile` variant of unnamed part_003
instead suppresses the result whenever the hash computation fails (panic
or zero hash) — it never emits a result carrying a hash error. -/
theorem c2_error_attached_or_suppressed (path : Str) (info : FileInfo) (now : Int)
    (cp : compiledPatterns) (opts : SearchOptions) (e : Str)
    (hacc : processFileBatchAccepts path info now cp opts = true) :
    processFileBatchResult path info now cp opts (.error e)
      = some ⟨path, info.size, info.mode, info.modTimeNanos, 0, some e⟩
    ∧ ∀ (path2 : Str) (lstat? : Option (FileInfo × Bool)) (info2 : FileInfo) (now2 : Int)
        (cp2 : compiledPatterns) (opts2 : SearchOptions) (e2 : Str),
        processRegularFileP3 path2 lstat? info2 now2 cp2 opts2 (.error e2) = none := by
  constructor
  · simp [processFileBatchResult, hacc, hashValue, hashError]
  · intro path2 lstat? info2 now2 cp2 opts2 e2
    rcases lstat? with _ | ⟨fi, isSym⟩
    · rfl
    · cases isSym
      · by_cases hacc2 : processFileBatchAccepts path2 info2 now2 cp2 opts2 = true
        · simp [processRegularFileP3, hacc2]
        · simp [processRegularFileP3, hacc2]
      · rfl

/-- C2 witness: the emission half at a concrete matching file. -/
theorem c2_witness :
    processFileBatchResult (strBytes "/t/a") ⟨10, 0, 420⟩ 0
        (preparePatterns (defaultOptions [strBytes "a"])) (defaultOptions [strBytes "a"])
        (.error (strBytes "boom"))
      = some ⟨strBytes "/t/a", 10, 420, 0, 0, some (strBytes "boom")⟩ :=
  (c2_error_attached_or_suppressed (strBytes "/t/a") ⟨10, 0, 420⟩ 0
      (preparePatterns (defaultOptions [strBytes "a"])) (defaultOptions [strBytes "a"])
      (strBytes "boom") (by decide)).1

theorem resultProcessorAdd_dedupe (st : resultProcessorState) (r : SearchResult) :
    (resultProcessorAdd st r).state.dedupe = st.dedupe := by
  unfold resultProcessorAdd rpSend
  by_cases hd : st.dedupe = true <;> by_cases hm : r.hash ∈ st.seen <;>
    by_cases hcl : st.closedStream = true <;> simp [hd, hm, hcl]

theorem resultProcessorAdd_invariant (st : resultProcessorState) (r : SearchResult)
    (hd : st.dedupe = true) (hinv : rpInvariant st) :
    rpInvariant (resultProcessorAdd st r).state := by
  obtain ⟨hnodup, hseen⟩ := hinv
  have hseen' : ∀ r2 ∈ st.stream, r2.hash ∈ st.seen := by
    intro r2 hr2
    simpa using hseen r2 hr2
  by_cases hm : r.hash ∈ st.seen
  · simp only [resultProcessorAdd, rpSend, hd]
    rw [if_pos trivial, if_pos (by simpa using hm)]
    exact ⟨hnodup, hseen⟩
  · have hnotin : r.hash ∉ st.stream.map (fun r2 => r2.hash) := by
      intro hmem
      rcases List.mem_map.mp hmem with ⟨r2, hr2, he⟩
      exact hm (he ▸ hseen' r2 hr2)
    have hcons : ∀ r2 ∈ st.stream, (r.hash :: st.seen).contains r2.hash = true := by
      intro r2 hr2
      have h2 : r2.hash ∈ r.hash :: st.seen := List.mem_cons_of_mem _ (hseen' r2 hr2)
      simpa using h2
    have hself : (r.hash :: st.seen).contains r.hash = true := by simp
    simp only [resultProcessorAdd, rpSend, hd]
    rw [if_pos trivial, if_neg (by simpa using hm)]
    by_cases hcl : st.closedStream = true
    · rw [if_pos hcl]
      exact ⟨hnodup, hcons⟩
    · rw [if_neg hcl]
      refine ⟨?_, ?_⟩
      · simp only [List.map_append, List.map_cons, List.map_nil]
        simp [List.nodup_append, hnodup, hnotin]
      · intro r2 hr2
        rcases List.mem_append.mp hr2 with h | h
        · exact hcons r2 h
        · rcases List.mem_singleton.mp h with rfl
          exact hself

theorem resultProcessorRun_invariant (rs : List SearchResult) (st : resultProcessorState)
    (hd : st.dedupe = true) (hinv : rpInvariant st) :
    rpInvariant (resultProcessorRun st rs) ∧ (resultProcessorRun st rs).dedupe = true := by
  induction rs generalizing st with
  | nil => exact ⟨hinv, hd⟩
  | cons r rest ih =>
      have hstep := resultProcessorAdd_invariant st r hd hinv
      have hdstep : (resultProcessorAdd st r).state.dedupe = true := by
        rw [resultProcessorAdd_dedupe]
        exact hd
      exact ih (resultProcessorAdd st r).state hdstep hstep

/-- C3: with `DeduplicateFiles` enabled, over any sequence of `add` calls
from a fresh processor the forwarded results carry pairwise-distinct
hashes — so of any two results with equal `Hash` at most one reaches the
results channel — and any `add` whose hash is already in the seen set is
dropped silently: no forward, no panic, state unchanged. -/
theorem c3_dedup_at_most_once (opts : SearchOptions)
    (hd : opts.deduplicateFiles = true) (rs : List SearchResult) :
    ((resultProcessorRun (newResultProcessor opts) rs).stream.map (fun r => r.hash)).Nodup
    ∧ ∀ (st : resultProcessorState) (r : SearchResult),
        st.dedupe = true → st.seen.contains r.hash = true →
        resultProcessorAdd st r = ⟨st, false, false⟩ := by
  constructor
  · have hinit : rpInvariant (newResultProcessor opts) := by
      refine ⟨List.nodup_nil, ?_⟩
      intro r hr
      simp [newResultProcessor] at hr
    have hd0 : (newResultProcessor opts).dedupe = true := hd
    exact (resultProcessorRun_invariant rs (newResultProcessor opts) hd0 hinit).1.1
  · intro st r hdst hc
    have hm : r.hash ∈ st.seen := by simpa using hc
    simp [resultProcessorAdd, hdst, hm]

/-- C3 witness: two results with the same hash through a fresh dedup
processor, and a silent drop on a state that has seen the hash. -/
theorem c3_witness :
    ((resultProcessorRun (newResultProcessor dedupOptions) [resA, resB]).stream.map
        (fun r => r.hash)).Nodup
    ∧ resultProcessorAdd seenState resA = ⟨seenState, false, false⟩ :=
  ⟨(c3_dedup_at_most_once dedupOptions rfl [resA, resB]).1,
   (c3_dedup_at_most_once dedupOptions rfl []).2 seenState resA rfl (by decide)⟩

/-- C5 counterexample: `add` after `close` on a dedup-off processor sends
on the closed results channel and panics — it faults the process instead
of being a defended no-op. -/
theorem c5_counterexample_add_after_close_panics :
    (resultProcessorAdd closedState resA).panicked = true
    ∧ (resultProcessorAdd closedState resA).forwarded = false := by
  decide

/-- C5 (amended): `add` after `close` is not defended against: it forwards
nothing, and unless dedup is enabled and the hash was already seen (the
silent early return), the send on the closed channel panics. -/
theorem c5_add_after_close (st : resultProcessorState) (r : SearchResult)
    (hclosed : st.closedStream = true) :
    (resultProcessorAdd st r).forwarded = false
    ∧ (resultProcessorAdd st r).panicked = !(st.dedupe && st.seen.contains r.hash) := by
  by_cases hd : st.dedupe = true <;> by_cases hm : r.hash ∈ st.seen <;>
    simp [resultProcessorAdd, rpSend, hd, hm, hclosed]

/-- C5 witness: a closed dedup processor that has not seen the hash still
panics. -/
theorem c5_witness :
    (resultProcessorAdd closedDedupState resB).forwarded = false
    ∧ (resultProcessorAdd closedDedupState resB).panicked
        = !(closedDedupState.dedupe && closedDedupState.seen.contains resB.hash) :=
  c5_add_after_close closedDedupState resB rfl

/-- C6 counterexample: a full queue with worker headroom — `Add` spawns one
worker but makes only a single enqueue attempt and returns the queue-full
error immediately; the claimed retry (a second enqueue attempt, with the
error only on its failure) does not happen. -/
theorem c6_counterexample_no_retry :
    fopAdd fullQueueProcessor (strBytes "/t/n") (some ⟨2, 0, 420⟩)
      = ⟨.error (strBytes "operation queue is full"),
          { fullQueueProcessor with currentWorkers := 1 }, 1, 1⟩ := by
  decide

/-- C6 (amended): when `Add` finds the queue full and the current worker
count is below the maximum, it spawns exactly one additional worker but
does not retry the enqueue: it returns the queue-full error immediately
after its single enqueue attempt, leaving the queue unchanged. -/
theorem c6_spawn_without_retry (p : FileOperationProcessor) (path : Str) (info : FileInfo)
    (hpath : path.isEmpty = false) (hstop : p.stopped = false) (hchan : p.chanOpen = true)
    (hfull : ¬ p.queue.length < p.maxQueueSize)
    (hworkers : p.currentWorkers < p.maxWorkers) :
    fopAdd p path (some info)
      = ⟨.error (strBytes "operation queue is full"),
          { p with currentWorkers := p.currentWorkers + 1 }, 1, 1⟩ := by
  simp [fopAdd, hpath, hstop, hchan, hfull, hworkers]

/-- C6 witness: the amended behaviour at the concrete full-queue
processor. -/
theorem c6_witness :
    fopAdd fullQueueProcessor (strBytes "/t/m") (some ⟨3, 0, 420⟩)
      = ⟨.error (strBytes "operation queue is full"),
          { fullQueueProcessor with currentWorkers := fullQueueProcessor.currentWorkers + 1 },
          1, 1⟩ :=
  c6_spawn_without_retry fullQueueProcessor (strBytes "/t/m") ⟨3, 0, 420⟩
    (by decide) (by decide) (by decide) (by decide) (by decide)

/-- C7: the processor's lifecycle is New → Started → Stopped: a second
`Start` after a successful one fails with the "processor already started"
error; `Stop` leaves the processor stopped and is idempotent (Stopped is
terminal); and every well-formed `Add` after `Stop` fails with the
"processor is stopped" error and enqueues nothing. -/
theorem c7_state_machine :
    (∀ p q, fopStart p = (.ok (), q) →
        (fopStart q).1 = .error (strBytes "processor already started"))
    ∧ (∀ p : FileOperationProcessor, (fopStop p).stopped = true ∧ fopStop (fopStop p) = fopStop p)
    ∧ (∀ (p : FileOperationProcessor) (path : Str) (info : FileInfo), path.isEmpty = false →
        (fopAdd (fopStop p) path (some info)).result = .error (strBytes "processor is stopped")
        ∧ (fopAdd (fopStop p) path (some info)).state.queue = (fopStop p).queue) := by
  refine ⟨?_, ?_, ?_⟩
  · intro p q hpq
    by_cases hs : p.started = true
    · simp [fopStart, hs] at hpq
    · by_cases hst : p.stopped = true
      · simp [fopStart, hs, hst] at hpq
      · simp only [fopStart, hs, hst, if_false, if_neg, Bool.false_eq_true,
          not_false_eq_true, Prod.mk.injEq, true_and] at hpq
        rw [← hpq]
        simp [fopStart]
  · intro p
    by_cases hst : p.stopped = true
    · constructor
      · simp [fopStop, hst]
      · simp [fopStop, hst]
    · constructor
      · simp [fopStop, hst]
      · simp [fopStop, hst]
  · intro p path info hpath
    have hstopped : (fopStop p).stopped = true := by
      by_cases hst : p.stopped = true <;> simp [fopStop, hst]
    constructor
    · simp [fopAdd, hpath, hstopped]
    · simp [fopAdd, hpath, hstopped]

/-- C7 witness: the lifecycle at a concrete fresh processor. -/
theorem c7_witness :
    (fopStart (fopStart freshProcessor).2).1 = .error (strBytes "processor already started")
    ∧ ((fopStop freshProcessor).stopped = true
        ∧ fopStop (fopStop freshProcessor) = fopStop freshProcessor)
    ∧ ((fopAdd (fopStop freshProcessor) (strBytes "/t/x") (some ⟨1, 0, 420⟩)).result
          = .error (strBytes "processor is stopped")
        ∧ (fopAdd (fopStop freshProcessor) (strBytes "/t/x") (some ⟨1, 0, 420⟩)).state.queue
            = (fopStop freshProcessor).queue) :=
  ⟨c7_state_machine.1 freshProcessor (fopStart freshProcessor).2 (by decide),
   c7_state_machine.2.1 freshProcessor,
   c7_state_machine.2.2 freshProcessor (strBytes "/t/x") ⟨1, 0, 420⟩ (by decide)⟩

theorem fsGet_erase_self (fs : FS) (p : Str) : fsGet (fsErase fs p) p = none := by
  induction fs with
  | nil => rfl
  | cons e rest ih =>
      obtain ⟨q, f⟩ := e
      by_cases hq : q = p
      · simpa [fsErase, hq] using ih
      · simpa [fsErase, fsGet, hq] using ih

theorem fsGet_erase_ne (fs : FS) (p q : Str) (h : p ≠ q) :
    fsGet (fsErase fs p) q = fsGet fs q := by
  induction fs with
  | nil => rfl
  | cons e rest ih =>
      obtain ⟨k, f⟩ := e
      by_cases hk : k = p
      · have hkq : ¬ k = q := fun he => h (hk ▸ he ▸ rfl)
        simp [fsErase, fsGet, hk, hkq, h, ih]
      · by_cases hq : k = q
        · simp [fsErase, fsGet, hk, hq, Ne.symm h]
        · simp [fsErase, fsGet, hk, hq, ih]

theorem fsGet_set_self (fs : FS) (p : Str) (f : FsFile) :
    fsGet (fsSet fs p f) p = some f := by
  simp [fsSet, fsGet]

theorem fsGet_set_ne (fs : FS) (p q : Str) (f : FsFile) (h : p ≠ q) :
    fsGet (fsSet fs p f) q = fsGet fs q := by
  simp [fsSet, fsGet, h, fsGet_erase_ne fs p q h]

theorem fsErase_of_absent (fs : FS) (p : Str) (h : fsGet fs p = none) :
    fsErase fs p = fs := by
  induction fs with
  | nil => rfl
  | cons e rest ih =>
      obtain ⟨k, f⟩ := e
      by_cases hk : k = p
      · simp [fsGet, hk] at h
      · simp only [fsGet, hk, if_neg, if_false] at h
        simp [fsErase, hk, ih h]

theorem fsErase_set_cancel (fs : FS) (p : Str) (f : FsFile) (h : fsGet fs p = none) :
    fsErase (fsSet fs p f) p = fs := by
  have h1 : fsErase fs p = fs := fsErase_of_absent fs p h
  have h2 : fsErase (fsSet fs p f) p = fsErase (fsErase fs p) p := by
    show fsErase ((p, f) :: fsErase fs p) p = fsErase (fsErase fs p) p
    simp only [fsErase, if_pos]
  rw [h2, h1, h1]

theorem append_tmp_ne (l : Str) : l ≠ l ++ strBytes ".tmp" := by
  intro he
  have hlen := congrArg List.length he
  simp [strBytes] at hlen

theorem c4ModeSpec_of_nonzero (fs : FS) (t : Str) (sz : Int) (m : Nat) (hsz : sz ≠ 0) :
    c4ModeSpec fs t sz m = m := by
  unfold c4ModeSpec
  rcases fsGet fs t with _ | old <;> simp [hsz]

/-- C4 counterexample: the `internal/search/process.go` `copyFile` (also
cited by the claim) writes straight into the final target with `O_TRUNC`;
when the copy fails midway it returns an error and leaves a newly created
partial file at the final target path — directly contradicting "if
copyFile returns an error, no file exists at the final target path that
did not exist before the call". -/
theorem c4_counterexample_partial_target :
    fsGet c4SourceFs (strBytes "/u/a.txt") = none
    ∧ c4FailedCopy.1 = .error (strBytes "failed to copy file content")
    ∧ fsGet c4FailedCopy.2 (strBytes "/u/a.txt") = some ⟨[1, 2], 420⟩ := by
  decide

/-- C4 (amended): for the temp-file `copyFile` of unnamed part_003, under a
stat snapshot that matches the source (no concurrent resize): on success
with a non-skipped resolved target and no pre-existing `.tmp` file there,
the resolved target holds exactly the source's bytes — with the source's
mode except that an empty source copied onto an existing target keeps that
target's prior mode — and no `.tmp` sibling of the target remains; on
error the filesystem is completely unchanged. (The direct-write `copyFile`
of `internal/search/process.go` does not satisfy the claim — see the
counterexample.) -/
theorem c4_copy_atomicity (fs : FS) (src targetDir : Str) (srcFile : FsFile)
    (srcInfoSize : Int) (srcInfoMode : Nat) (policy : ConflictResolutionPolicy)
    (ts : Nat) (randHex? : Option Str) (fails : CopyFailures)
    (hsrc : fsGet fs src = some srcFile)
    (hsize : (srcFile.bytes.length : Int) = srcInfoSize) :
    (∀ e, (copyFile fs src srcInfoSize srcInfoMode targetDir policy ts randHex? fails).1 = .error e →
        (copyFile fs src srcInfoSize srcInfoMode targetDir policy ts randHex? fails).2 = fs)
    ∧ ((copyFile fs src srcInfoSize srcInfoMode targetDir policy ts randHex? fails).1 = .ok () →
        resolveConflict fs (filepathJoin targetDir (filepathBase src)) policy ts randHex? ≠ [] →
        fsGet fs (resolveConflict fs (filepathJoin targetDir (filepathBase src)) policy ts randHex?
            ++ strBytes ".tmp") = none →
        fsGet (copyFile fs src srcInfoSize srcInfoMode targetDir policy ts randHex? fails).2
            (resolveConflict fs (filepathJoin targetDir (filepathBase src)) policy ts randHex?)
          = some ⟨srcFile.bytes,
              c4ModeSpec fs
                (resolveConflict fs (filepathJoin targetDir (filepathBase src)) policy ts randHex?)
                srcInfoSize srcInfoMode⟩
        ∧ fsGet (copyFile fs src srcInfoSize srcInfoMode targetDir policy ts randHex? fails).2
            (resolveConflict fs (filepathJoin targetDir (filepathBase src)) policy ts randHex?
              ++ strBytes ".tmp") = none) := by
  constructor
  · intro e he
    by_cases hse : src.isEmpty = true
    · simp [copyFile, hse]
    · by_cases hT0 : (resolveConflict fs (filepathJoin targetDir (filepathBase src)) policy ts randHex?).isEmpty = true
      · simp [copyFile, hse, hT0] at he
      · by_cases hsz : srcInfoSize = 0
        · by_cases hce : fails.createEmptyFails = true
          · simp [copyFile, copyEmptyFile, hse, hT0, hsz, hce]
          · rcases hgt : fsGet fs (resolveConflict fs (filepathJoin targetDir (filepathBase src)) policy ts randHex?) with _ | old
            · simp [copyFile, copyEmptyFile, hse, hT0, hsz, hce, hgt] at he
            · simp [copyFile, copyEmptyFile, hse, hT0, hsz, hce, hgt] at he
        · by_cases hos : fails.openSrcFails = true
          · simp [copyFile, hse, hT0, hsz, hsrc, hos]
          · by_cases htc : (fsExists fs (resolveConflict fs (filepathJoin targetDir (filepathBase src)) policy ts randHex? ++ strBytes ".tmp") || fails.createTmpFails) = true
            · simp [copyFile, hse, hT0, hsz, hsrc, hos, htc]
            · have hnotmp : fsGet fs (resolveConflict fs (filepathJoin targetDir (filepathBase src)) policy ts randHex? ++ strBytes ".tmp") = none := by
                rcases h2 : fsGet fs (resolveConflict fs (filepathJoin targetDir (filepathBase src)) policy ts randHex? ++ strBytes ".tmp") with _ | f2
                · rfl
                · exact absurd (by simp [fsExists, h2]) htc
              rcases hca : fails.copyErrAfter with _ | k
              · by_cases hsy : fails.syncFails = true
                · simp [copyFile, hse, hT0, hsz, hsrc, hos, htc, hca, hsize, hsy,
                    fsErase_set_cancel _ _ _ hnotmp]
                · by_cases hcl : fails.closeFails = true
                  · simp [copyFile, hse, hT0, hsz, hsrc, hos, htc, hca, hsize, hsy, hcl,
                      fsErase_set_cancel _ _ _ hnotmp]
                  · by_cases hrn : fails.renameFails = true
                    · simp [copyFile, hse, hT0, hsz, hsrc, hos, htc, hca, hsize, hsy, hcl, hrn,
                        fsErase_set_cancel _ _ _ hnotmp]
                    · simp [copyFile, hse, hT0, hsz, hsrc, hos, htc, hca, hsize, hsy, hcl, hrn] at he
              · simp [copyFile, hse, hT0, hsz, hsrc, hos, htc, hca,
                  fsErase_set_cancel _ _ _ hnotmp]
  · intro hok hne htmp
    have hT0 : ¬ (resolveConflict fs (filepathJoin targetDir (filepathBase src)) policy ts randHex?).isEmpty = true := by
      simpa [List.isEmpty_iff] using hne
    by_cases hse : src.isEmpty = true
    · simp [copyFile, hse] at hok
    · by_cases hsz : srcInfoSize = 0
      · have hbe : srcFile.bytes = [] := by
          have h0 : (srcFile.bytes.length : Int) = 0 := by rw [hsize, hsz]
          have h2 : srcFile.bytes.length = 0 := by exact_mod_cast h0
          exact List.length_eq_zero.mp h2
        by_cases hce : fails.createEmptyFails = true
        · simp [copyFile, copyEmptyFile, hse, hT0, hsz, hce] at hok
        · rcases hgt : fsGet fs (resolveConflict fs (filepathJoin targetDir (filepathBase src)) policy ts randHex?) with _ | old
          · have h2 : (copyFile fs src srcInfoSize srcInfoMode targetDir policy ts randHex? fails).2
                = fsSet fs (resolveConflict fs (filepathJoin targetDir (filepathBase src)) policy ts randHex?) ⟨[], srcInfoMode⟩ := by
              simp [copyFile, copyEmptyFile, hse, hT0, hsz, hce, hgt]
            rw [h2]
            constructor
            · rw [fsGet_set_self]
              simp [c4ModeSpec, hgt, hbe]
            · rw [fsGet_set_ne _ _ _ _ (append_tmp_ne _)]
              exact htmp
          · have h2 : (copyFile fs src srcInfoSize srcInfoMode targetDir policy ts randHex? fails).2
                = fsSet fs (resolveConflict fs (filepathJoin targetDir (filepathBase src)) policy ts randHex?) ⟨[], old.mode⟩ := by
              simp [copyFile, copyEmptyFile, hse, hT0, hsz, hce, hgt]
            rw [h2]
            constructor
            · rw [fsGet_set_self]
              simp [c4ModeSpec, hgt, hbe, hsz]
            · rw [fsGet_set_ne _ _ _ _ (append_tmp_ne _)]
              exact htmp
      · by_cases hos : fails.openSrcFails = true
        · simp [copyFile, hse, hT0, hsz, hsrc, hos] at hok
        · by_cases htc : (fsExists fs (resolveConflict fs (filepathJoin targetDir (filepathBase src)) policy ts randHex? ++ strBytes ".tmp") || fails.createTmpFails) = true
          · simp [copyFile, hse, hT0, hsz, hsrc, hos, htc] at hok
          · rcases hca : fails.copyErrAfter with _ | k
            · by_cases hsy : fails.syncFails = true
              · simp [copyFile, hse, hT0, hsz, hsrc, hos, htc, hca, hsize, hsy] at hok
              · by_cases hcl : fails.closeFails = true
                · simp [copyFile, hse, hT0, hsz, hsrc, hos, htc, hca, hsize, hsy, hcl] at hok
                · by_cases hrn : fails.renameFails = true
                  · simp [copyFile, hse, hT0, hsz, hsrc, hos, htc, hca, hsize, hsy, hcl, hrn] at hok
                  · have h2 : (copyFile fs src srcInfoSize srcInfoMode targetDir policy ts randHex? fails).2
                        = fsSet fs (resolveConflict fs (filepathJoin targetDir (filepathBase src)) policy ts randHex?) ⟨srcFile.bytes, srcInfoMode⟩ := by
                      simp [copyFile, hse, hT0, hsz, hsrc, hos, htc, hca, hsize, hsy, hcl, hrn,
                        fsErase_set_cancel _ _ _ htmp]
                    rw [h2]
                    constructor
                    · rw [fsGet_set_self, c4ModeSpec_of_nonzero fs _ _ _ hsz]
                    · rw [fsGet_set_ne _ _ _ _ (append_tmp_ne _)]
                      exact htmp
            · simp [copyFile, hse, hT0, hsz, hsrc, hos, htc, hca] at hok

/-- C4 witness: a concrete failure-free copy with `Overwrite` into an empty
target directory — the amended theorem applied at this input yields the
target file with the source's bytes and mode and no `.tmp` left behind. -/
theorem c4_witness :
    fsGet (copyFile c4SourceFs (strBytes "/t/a.txt") 4 420 (strBytes "/u") .Overwrite 0 none
        ⟨false, false, none, false, false, false, false⟩).2
      (resolveConflict c4SourceFs
        (filepathJoin (strBytes "/u") (filepathBase (strBytes "/t/a.txt"))) .Overwrite 0 none)
      = some ⟨[1, 2, 3, 4],
          c4ModeSpec c4SourceFs
            (resolveConflict c4SourceFs
              (filepathJoin (strBytes "/u") (filepathBase (strBytes "/t/a.txt"))) .Overwrite 0 none)
            4 420⟩
    ∧ fsGet (copyFile c4SourceFs (strBytes "/t/a.txt") 4 420 (strBytes "/u") .Overwrite 0 none
        ⟨false, false, none, false, false, false, false⟩).2
      (resolveConflict c4SourceFs
        (filepathJoin (strBytes "/u") (filepathBase (strBytes "/t/a.txt"))) .Overwrite 0 none
        ++ strBytes ".tmp") = none :=
  (c4_copy_atomicity c4SourceFs (strBytes "/t/a.txt") (strBytes "/u") ⟨[1, 2, 3, 4], 420⟩
      4 420 .Overwrite 0 none ⟨false, false, none, false, false, false, false⟩
      (by decide) (by decide)).2 (by decide) (by decide) (by decide)
